import Mathlib

/-!
Verification of the PolifunctionsSDK core (representation-polymorphic
evaluation and combinator algebra) against its specification.

The Rust sources are shallowly embedded as follows:
* `HashSet<T>` becomes `Finset T` (with `[DecidableEq]` where the code
  needs `Eq + Hash`);
* `Result<V, PolifunctionError>` becomes `Except PolifunctionError V`;
* a `Domain`/`Codomain` object is represented by its `contains` predicate
  `A → Bool` (the only operation the traits expose);
* a trait object (`SetValuedPolifunction`, `IntervalValuedPolifunction`,
  `PolifunctionBase`) becomes a structure bundling the trait's methods, so
  combinators are parametric over arbitrary implementations exactly as the
  Rust combinators are parametric over trait bounds;
* `PartialOrd::partial_cmp` becomes an explicit comparison function
  `pcmp : T → T → Option Ordering`; for totally ordered element types it is
  instantiated with `cmpOf`, i.e. `fun a b => some (compare a b)`;
* boxed mapping-function closures become plain Lean functions.
-/

namespace PolifunctionsSDK

/-- Error type for polifunction operations
(src/core/interfaces/polifunction.rs, `PolifunctionError`). -/
inductive PolifunctionError where
  | DomainError
  | ComputationError
  | ConvergenceError
  | InvalidOperation
  | Other (msg : String)
deriving DecidableEq

/-- Continuous interval with independently inclusive/exclusive bounds
(src/core/interfaces/polifunction.rs, `Interval`). -/
structure Interval (T : Type) where
  lower : T
  upper : T
  lower_inclusive : Bool
  upper_inclusive : Bool
deriving DecidableEq

/-- Possible output values of a polifunction
(src/core/interfaces/polifunction.rs, `PolifunctionValue`).
`Distribution` and `FuzzySet` are placeholder payloads with no fields in the
source, so they are embedded as nullary constructors. -/
inductive PolifunctionValue (T : Type) where
  | Single (v : T)
  | Set (s : Finset T)
  | Interval (i : PolifunctionsSDK.Interval T)
  | Distribution
  | FuzzySet
deriving DecidableEq

/-- Reduction of the `Except` monad's bind on a success value. -/
@[simp]
theorem exceptBind_ok {E α β : Type} (a : α) (f : α → Except E β) :
    (Except.ok a >>= f : Except E β) = f a := rfl

/-- Reduction of the `Except` monad's bind on an error value. -/
@[simp]
theorem exceptBind_error {E α β : Type} (e : E) (f : α → Except E β) :
    (Except.error e >>= f : Except E β) = .error e := rfl

deriving instance DecidableEq for Except

/-- The `Except` monad's `pure` is `Except.ok`. -/
@[simp]
theorem exceptPure_eq_ok {E α : Type} (a : α) :
    (pure a : Except E α) = .ok a := rfl

/-- Base contract of every polifunction
(src/core/interfaces/polifunction.rs, `PolifunctionBase`): `evaluate` and
`in_domain` over a domain with element type `A` and codomain with element
type `B`. -/
structure PolifunctionBase (A B : Type) where
  evaluate : A → Except PolifunctionError (PolifunctionValue B)
  in_domain : A → Bool

/-- Set-valued capability (src/core/interfaces/set_valued.rs,
`SetValuedPolifunction`): the base contract plus `value_set`,
`contains_value` and `cardinality`. -/
structure SetValuedPF (A B : Type) extends PolifunctionBase A B where
  value_set : A → Except PolifunctionError (Finset B)
  contains_value : A → B → Except PolifunctionError Bool
  cardinality : A → Except PolifunctionError Nat

/-- `BasicSetValuedPolifunction::value_set`
(src/core/interfaces/set_valued.rs lines 96-103): re-check domain
membership, then call the mapping function and propagate its errors
unchanged. -/
def basicSetValueSet {A B : Type}
    (mapping_function : A → Except PolifunctionError (Finset B))
    (domain : A → Bool) (input : A) : Except PolifunctionError (Finset B) :=
  if !domain input then .error .DomainError
  else mapping_function input

/-- `BasicSetValuedPolifunction` (src/core/interfaces/set_valued.rs):
wraps a caller-supplied mapping function plus the declared domain.
`contains_value` and `cardinality` are derived by calling `value_set`. -/
def BasicSetValuedPolifunction {A B : Type} [DecidableEq B]
    (mapping_function : A → Except PolifunctionError (Finset B))
    (domain : A → Bool) : SetValuedPF A B where
  evaluate input :=
    if !domain input then .error .DomainError
    else do
      let result_set ← mapping_function input
      pure (.Set result_set)
  in_domain input := domain input
  value_set := basicSetValueSet mapping_function domain
  contains_value input value := do
    let set ← basicSetValueSet mapping_function domain input
    pure (decide (value ∈ set))
  cardinality input := do
    let set ← basicSetValueSet mapping_function domain input
    pure set.card

/-- `UnionPolifunction::in_domain` (src/core/interfaces/set_valued.rs
line 193-195): the union's domain is the union of constituent domains. -/
def unionInDomain {A B : Type} (p1 p2 : SetValuedPF A B) (input : A) : Bool :=
  p1.in_domain input || p2.in_domain input

/-- `UnionPolifunction::evaluate` (src/core/interfaces/set_valued.rs
lines 150-191): check the union's domain; collect `p1.value_set` tolerating
a `DomainError` (other errors return early); then collect `p2.value_set`,
where a `DomainError` from `p2` is fatal only if the set collected so far
is empty, and any other error returns early. -/
def unionEvaluate {A B : Type} [DecidableEq B] (p1 p2 : SetValuedPF A B)
    (input : A) : Except PolifunctionError (PolifunctionValue B) :=
  if !unionInDomain p1 p2 input then .error .DomainError
  else
    match p1.value_set input with
    | .ok set1 =>
      (match p2.value_set input with
       | .ok set2 => .ok (.Set (set1 ∪ set2))
       | .error .DomainError =>
         if set1 = ∅ then .error .DomainError else .ok (.Set set1)
       | .error e => .error e)
    | .error .DomainError =>
      (match p2.value_set input with
       | .ok set2 => .ok (.Set set2)
       | .error .DomainError => .error .DomainError
       | .error e => .error e)
    | .error e => .error e

/-- `UnionPolifunction::value_set` (src/core/interfaces/set_valued.rs
lines 205-228): check the union's domain; extend the result set with each
branch's set only when that branch returned `Ok` (`if let Ok(..)` — every
branch error, of any kind, is silently dropped); finally an empty combined
set yields `DomainError`. -/
def unionValueSet {A B : Type} [DecidableEq B] (p1 p2 : SetValuedPF A B)
    (input : A) : Except PolifunctionError (Finset B) :=
  if !unionInDomain p1 p2 input then .error .DomainError
  else
    let set1 := match p1.value_set input with
      | .ok s => s
      | .error _ => (∅ : Finset B)
    let set2 := match p2.value_set input with
      | .ok s => s
      | .error _ => (∅ : Finset B)
    let result_set := set1 ∪ set2
    if result_set = ∅ then .error .DomainError
    else .ok result_set

/-- Second half of `UnionPolifunction::contains_value`
(src/core/interfaces/set_valued.rs lines 248-258). -/
def unionContainsValueSnd {A B : Type} (p2 : SetValuedPF A B)
    (input : A) (value : B) : Except PolifunctionError Bool :=
  match p2.contains_value input value with
  | .ok result => .ok result
  | .error .DomainError => .error .DomainError
  | .error e => .error e

/-- `UnionPolifunction::contains_value` (src/core/interfaces/set_valued.rs
lines 230-259). -/
def unionContainsValue {A B : Type} (p1 p2 : SetValuedPF A B)
    (input : A) (value : B) : Except PolifunctionError Bool :=
  if !unionInDomain p1 p2 input then .error .DomainError
  else
    match p1.contains_value input value with
    | .ok true => .ok true
    | .ok false => unionContainsValueSnd p2 input value
    | .error .DomainError => unionContainsValueSnd p2 input value
    | .error e => .error e

/-- `UnionPolifunction` (src/core/interfaces/set_valued.rs): union of two
set-valued polifunctions over the same domain/codomain. `cardinality` is
derived from the union's own `value_set`. -/
def UnionPolifunction {A B : Type} [DecidableEq B]
    (p1 p2 : SetValuedPF A B) : SetValuedPF A B where
  evaluate := unionEvaluate p1 p2
  in_domain := unionInDomain p1 p2
  value_set := unionValueSet p1 p2
  contains_value := unionContainsValue p1 p2
  cardinality input := do
    let set ← unionValueSet p1 p2 input
    pure set.card

/-- Interval-valued capability (src/core/interfaces/interval_valued.rs,
`IntervalValuedPolifunction`): the base contract plus `value_interval` and
`contains_value`. (`interval_width` additionally requires subtraction on
the element type; no claim concerns it, so it is not bundled.) -/
structure IntervalValuedPF (A B : Type) extends PolifunctionBase A B where
  value_interval : A → Except PolifunctionError (PolifunctionsSDK.Interval B)
  contains_value : A → B → Except PolifunctionError Bool

/-- The lower-bound check of `contains_value`
(src/core/interfaces/interval_valued.rs lines 107-111): satisfied when the
bound is inclusive and the value compares equal to it, or when the value
compares strictly greater; an incomparable value fails the check. -/
def lowerCheckB {T : Type} (pcmp : T → T → Option Ordering)
    (interval : Interval T) (value : T) : Bool :=
  match interval.lower_inclusive, pcmp value interval.lower with
  | true, some Ordering.eq => true
  | _, some Ordering.gt => true
  | _, _ => false

/-- The upper-bound check of `contains_value`
(src/core/interfaces/interval_valued.rs lines 113-117): dual to
`lowerCheckB`, with strictly-less in place of strictly-greater. -/
def upperCheckB {T : Type} (pcmp : T → T → Option Ordering)
    (interval : Interval T) (value : T) : Bool :=
  match interval.upper_inclusive, pcmp value interval.upper with
  | true, some Ordering.eq => true
  | _, some Ordering.lt => true
  | _, _ => false

/-- `BasicIntervalValuedPolifunction::value_interval`
(src/core/interfaces/interval_valued.rs lines 93-100). -/
def basicIntervalValueInterval {A B : Type}
    (mapping_function : A → Except PolifunctionError (Interval B))
    (domain : A → Bool) (input : A) :
    Except PolifunctionError (Interval B) :=
  if !domain input then .error .DomainError
  else mapping_function input

/-- `BasicIntervalValuedPolifunction`
(src/core/interfaces/interval_valued.rs): wraps a mapping function
returning an interval; `contains_value` is derived from `value_interval`
with the inclusive/exclusive bound checks. -/
def BasicIntervalValuedPolifunction {A B : Type}
    (pcmp : B → B → Option Ordering)
    (mapping_function : A → Except PolifunctionError (Interval B))
    (domain : A → Bool) : IntervalValuedPF A B where
  evaluate input :=
    if !domain input then .error .DomainError
    else do
      let interval ← mapping_function input
      pure (.Interval interval)
  in_domain input := domain input
  value_interval := basicIntervalValueInterval mapping_function domain
  contains_value input value := do
    let interval ← basicIntervalValueInterval mapping_function domain input
    pure (lowerCheckB pcmp interval value && upperCheckB pcmp interval value)

/-- `HullPolifunction::in_domain` (src/core/interfaces/interval_valued.rs
lines 174-176). -/
def hullInDomain {A B : Type} (p1 p2 : IntervalValuedPF A B)
    (input : A) : Bool :=
  p1.in_domain input || p2.in_domain input

/-- The hull computation on two already-obtained intervals
(src/core/interfaces/interval_valued.rs lines 215-235): the lower bound is
chosen by `partial_cmp` of the two lower bounds (`Less` keeps interval1's
bound and inclusivity, `Equal` keeps the value with OR-ed inclusivity,
`Greater` takes interval2's bound and inclusivity, an incomparable pair
returns `ComputationError` early), and dually for the upper bound. -/
def hullCombine {B : Type} (pcmp : B → B → Option Ordering)
    (interval1 interval2 : Interval B) :
    Except PolifunctionError (Interval B) := do
  let lower : B × Bool ←
    match pcmp interval1.lower interval2.lower with
    | some Ordering.lt => pure (interval1.lower, interval1.lower_inclusive)
    | some Ordering.eq =>
      pure (interval1.lower, interval1.lower_inclusive || interval2.lower_inclusive)
    | some Ordering.gt => pure (interval2.lower, interval2.lower_inclusive)
    | none => .error .ComputationError
  let upper : B × Bool ←
    match pcmp interval1.upper interval2.upper with
    | some Ordering.gt => pure (interval1.upper, interval1.upper_inclusive)
    | some Ordering.eq =>
      pure (interval1.upper, interval1.upper_inclusive || interval2.upper_inclusive)
    | some Ordering.lt => pure (interval2.upper, interval2.upper_inclusive)
    | none => .error .ComputationError
  pure { lower := lower.1, upper := upper.1,
         lower_inclusive := lower.2, upper_inclusive := upper.2 }

/-- `HullPolifunction::value_interval`
(src/core/interfaces/interval_valued.rs lines 185-236): check the hull's
domain; a `DomainError` from `p1` falls back to `p2`'s interval alone and
vice versa, any other branch error propagates; when both succeed the hull
of the two intervals is computed. -/
def hullValueInterval {A B : Type} (pcmp : B → B → Option Ordering)
    (p1 p2 : IntervalValuedPF A B) (input : A) :
    Except PolifunctionError (Interval B) :=
  if !hullInDomain p1 p2 input then .error .DomainError
  else
    match p1.value_interval input with
    | .error .DomainError => p2.value_interval input
    | .error e => .error e
    | .ok interval1 =>
      match p2.value_interval input with
      | .error .DomainError => .ok interval1
      | .error e => .error e
      | .ok interval2 => hullCombine pcmp interval1 interval2

/-- `HullPolifunction` (src/core/interfaces/interval_valued.rs): smallest
interval containing both constituents' output intervals; `evaluate` and
`contains_value` are derived from `value_interval`. -/
def HullPolifunction {A B : Type} (pcmp : B → B → Option Ordering)
    (p1 p2 : IntervalValuedPF A B) : IntervalValuedPF A B where
  evaluate input :=
    if !hullInDomain p1 p2 input then .error .DomainError
    else do
      let interval ← hullValueInterval pcmp p1 p2 input
      pure (.Interval interval)
  in_domain := hullInDomain p1 p2
  value_interval := hullValueInterval pcmp p1 p2
  contains_value input value := do
    let interval ← hullValueInterval pcmp p1 p2 input
    pure (lowerCheckB pcmp interval value && upperCheckB pcmp interval value)

/-- `partial_cmp` of a totally ordered element type: always comparable,
by the linear order's three-way comparison. -/
def cmpOf {T : Type} [LinearOrder T] (a b : T) : Option Ordering :=
  some (compare a b)

/-- `LiftedPolifunction` (src/core/interfaces/operations.rs lines 13-69):
wraps an ordinary fallible function as a base polifunction returning
`Single(value)`; the domain check precedes invocation. -/
def LiftedPolifunction {A B : Type}
    (function : A → Except PolifunctionError B)
    (domain : A → Bool) : PolifunctionBase A B where
  evaluate input :=
    if !domain input then .error .DomainError
    else do
      let value ← function input
      pure (.Single value)
  in_domain input := domain input

/-- `InvertedPolifunction` (src/core/interfaces/operations.rs
lines 72-118): conceptually swaps domain and codomain, but `evaluate`
always fails with `Other("Not implemented yet")` and `in_domain` always
returns `false`. -/
def InvertedPolifunction {A B : Type} (original : PolifunctionBase A B) :
    PolifunctionBase B A where
  evaluate _ := .error (.Other "Not implemented yet")
  in_domain _ := false

/-- `SumPolifunction` (src/core/interfaces/operations.rs lines 121-177):
requires an addable codomain element type (`add`); the input must be in
the domain of both polifunctions; only the `Single + Single` shape is
combined, every other combination of successful shapes yields
`Other("Complex operation not yet implemented")`. -/
def SumPolifunction {A B : Type} (add : B → B → B)
    (p1 p2 : PolifunctionBase A B) : PolifunctionBase A B where
  evaluate input :=
    if !(p1.in_domain input && p2.in_domain input) then .error .DomainError
    else do
      let result1 ← p1.evaluate input
      let result2 ← p2.evaluate input
      match result1, result2 with
      | .Single v1, .Single v2 => pure (.Single (add v1 v2))
      | _, _ => .error (.Other "Complex operation not yet implemented")
  in_domain input := p1.in_domain input && p2.in_domain input

/-- `compose` (src/core/interfaces/operations.rs lines 194-242):
evaluates `p2` first; only the `Single` intermediate shape is supported
(other shapes yield `Other("Complex composition not yet implemented")`);
the single value is converted into `p1`'s domain element type by `conv`
(the `Into` conversion of the source) and `p1.evaluate` is called on it.
`in_domain` delegates entirely to `p2.in_domain`. -/
def compose {A1 B1 A2 B2 : Type} (conv : B2 → A1)
    (p1 : PolifunctionBase A1 B1) (p2 : PolifunctionBase A2 B2) :
    PolifunctionBase A2 B1 where
  evaluate input :=
    if !p2.in_domain input then .error .DomainError
    else do
      let intermediate_result ← p2.evaluate input
      match intermediate_result with
      | .Single v => p1.evaluate (conv v)
      | _ => .error (.Other "Complex composition not yet implemented")
  in_domain input := p2.in_domain input

/-- `ComposedPolifunction` (src/core/interfaces/polifunction.rs
lines 125-153, the `Composable`-trait placeholder): `evaluate` always
fails with `Other("ComposedPolifunction evaluation not implemented")`;
`in_domain` delegates to `p2`. -/
def ComposedPolifunction {A1 B1 A2 B2 : Type} (conv : B2 → A1)
    (p1 : PolifunctionBase A1 B1) (p2 : PolifunctionBase A2 B2) :
    PolifunctionBase A2 B1 where
  evaluate _ :=
    .error (.Other "ComposedPolifunction evaluation not implemented")
  in_domain input := p2.in_domain input

/-- `SetToIntervalPolifunction::value_interval`
(src/core/interfaces/operations.rs lines 294-310): take the underlying
value set (no extra domain check of its own), fail with
`ComputationError` when it is empty, otherwise return the interval from
the set's minimum to its maximum, both bounds inclusive. -/
def toIntervalValueInterval {A B : Type} [LinearOrder B]
    (p : SetValuedPF A B) (input : A) :
    Except PolifunctionError (Interval B) := do
  let set ← p.value_set input
  if hs : set = ∅ then .error .ComputationError
  else
    pure { lower := set.min' (Finset.nonempty_iff_ne_empty.mpr hs),
           upper := set.max' (Finset.nonempty_iff_ne_empty.mpr hs),
           lower_inclusive := true, upper_inclusive := true }

/-- `to_interval` (src/core/interfaces/operations.rs lines 244-331):
converts a set-valued polifunction over an ordered element type into an
interval-valued one by taking the extrema of the value set. The
`contains_value` of this combinator uses plain `<=` bound checks (both
bounds are inclusive by construction). -/
def to_interval {A B : Type} [LinearOrder B] (p : SetValuedPF A B) :
    IntervalValuedPF A B where
  evaluate input :=
    if !p.in_domain input then .error .DomainError
    else do
      let set ← p.value_set input
      if hs : set = ∅ then .error .ComputationError
      else
        pure (.Interval
          { lower := set.min' (Finset.nonempty_iff_ne_empty.mpr hs),
            upper := set.max' (Finset.nonempty_iff_ne_empty.mpr hs),
            lower_inclusive := true, upper_inclusive := true })
  in_domain input := p.in_domain input
  value_interval := toIntervalValueInterval p
  contains_value input value := do
    let interval ← toIntervalValueInterval p input
    pure (decide (interval.lower ≤ value) && decide (value ≤ interval.upper))

/-- `lift_to_set` (src/core/interfaces/operations.rs lines 333-424):
wraps an ordinary fallible function as a set-valued polifunction whose
value set is the one-element set of the function's result; `cardinality`
checks the domain and then returns `1` without invoking the function. -/
def lift_to_set {A B : Type} [DecidableEq B]
    (f : A → Except PolifunctionError B) (domain : A → Bool) :
    SetValuedPF A B where
  evaluate input :=
    if !domain input then .error .DomainError
    else do
      let value ← f input
      pure (.Set {value})
  in_domain input := domain input
  value_set input :=
    if !domain input then .error .DomainError
    else do
      let value ← f input
      pure {value}
  contains_value input value :=
    if !domain input then .error .DomainError
    else do
      let result ← f input
      pure (decide (result = value))
  cardinality input :=
    if !domain input then .error .DomainError
    else .ok 1

/-! ## Concrete instances used by witnesses and counterexamples -/

/-- A set-valued polifunction whose every operation fails with
`ComputationError`, while its `in_domain` is constantly true (a mapping
function may fail even inside the declared domain). -/
def pCompErr : SetValuedPF Int Int where
  evaluate _ := .error .ComputationError
  in_domain _ := true
  value_set _ := .error .ComputationError
  contains_value _ _ := .error .ComputationError
  cardinality _ := .error .ComputationError

/-- A set-valued polifunction constantly returning the set `{1}`. -/
def pOne : SetValuedPF Int Int where
  evaluate _ := .ok (.Set {1})
  in_domain _ := true
  value_set _ := .ok {1}
  contains_value _ value := .ok (decide (value = 1))
  cardinality _ := .ok 1

/-- A set-valued polifunction constantly returning the empty set. -/
def pEmptySet : SetValuedPF Int Int where
  evaluate _ := .ok (.Set ∅)
  in_domain _ := true
  value_set _ := .ok ∅
  contains_value _ _ := .ok false
  cardinality _ := .ok 0

/-- A base polifunction constantly returning `Single 0`. -/
def pB0 : PolifunctionBase Int Int where
  evaluate _ := .ok (.Single 0)
  in_domain _ := true

/-! ## Claims -/

/-- C1, counterexample. The claim says a non-`DomainError` error from one
branch of `Union.value_set` propagates immediately as the overall result.
On the code it does not: with `P1` failing with `ComputationError` at `0`
and `P2` succeeding with `{1}`, `Union(P1,P2).value_set(0)` is `Ok {1}`
rather than `Err ComputationError` — the error is silently dropped. -/
theorem c1_counterexample :
    pCompErr.value_set 0 = .error .ComputationError ∧
    unionValueSet pCompErr pOne 0 = .ok {1} := by
  constructor
  · rfl
  · simp [unionValueSet, unionInDomain, pCompErr, pOne]

/-- C1, amended behaviour, stated in the spec's vocabulary: the result of
`Union.value_set` is `DomainError` when the union's `in_domain` is false;
otherwise each branch contributes its set when it succeeded and the empty
set when it failed with any error whatsoever (no branch error ever
propagates), and an empty combined contribution yields `DomainError`. -/
def specUnionValueSet {A B : Type} [DecidableEq B]
    (p1 p2 : SetValuedPF A B) (input : A) :
    Except PolifunctionError (Finset B) :=
  if p1.in_domain input || p2.in_domain input then
    let contribution1 := (p1.value_set input).toOption.getD ∅
    let contribution2 := (p2.value_set input).toOption.getD ∅
    if contribution1 ∪ contribution2 = ∅ then .error .DomainError
    else .ok (contribution1 ∪ contribution2)
  else .error .DomainError

/-- C1, amended: `Union.value_set` equals the amended description
`specUnionValueSet` on every pair of set-valued polifunctions and every
input — in particular every branch error (not only `DomainError`) is
treated as an empty contribution and never propagates. -/
theorem c1_amended {A B : Type} [DecidableEq B]
    (p1 p2 : SetValuedPF A B) (input : A) :
    unionValueSet p1 p2 input = specUnionValueSet p1 p2 input := by
  unfold unionValueSet specUnionValueSet unionInDomain
  cases h1 : p1.value_set input <;> cases h2 : p2.value_set input <;>
    cases hd1 : p1.in_domain input <;> cases hd2 : p2.in_domain input <;>
    simp [Except.toOption]

/-- C9: for any underlying polifunction, the inversion stub's `evaluate`
always fails with `Other("Not implemented yet")` and its `in_domain`
always returns false. -/
theorem c9_inversion_stub {A B : Type} (p : PolifunctionBase A B) (y : B) :
    (InvertedPolifunction p).evaluate y =
      .error (.Other "Not implemented yet") ∧
    (InvertedPolifunction p).in_domain y = false :=
  ⟨rfl, rfl⟩

/-- C10: on an input in the union's domain where both branches succeed
with empty sets, `Union.value_set` is `DomainError` while
`Union.evaluate` on the same input is `Ok(Set(∅))`. -/
theorem c10_union_empty {A B : Type} [DecidableEq B]
    (p1 p2 : SetValuedPF A B) (x : A)
    (hdom : unionInDomain p1 p2 x = true)
    (h1 : p1.value_set x = .ok ∅) (h2 : p2.value_set x = .ok ∅) :
    unionValueSet p1 p2 x = .error .DomainError ∧
    unionEvaluate p1 p2 x = .ok (.Set (∅ : Finset B)) := by
  constructor
  · simp [unionValueSet, hdom, h1, h2]
  · simp [unionEvaluate, hdom, h1, h2]

/-- C10, witness: both branches of `UnionPolifunction pEmptySet pEmptySet`
succeed with the empty set at `0`. -/
theorem c10_witness :
    unionValueSet pEmptySet pEmptySet 0 = .error .DomainError ∧
    unionEvaluate pEmptySet pEmptySet 0 = .ok (.Set (∅ : Finset Int)) :=
  c10_union_empty pEmptySet pEmptySet 0 rfl rfl rfl

/-- A base polifunction constantly returning `Single 2`. -/
def pS2 : PolifunctionBase Int Int where
  evaluate _ := .ok (.Single 2)
  in_domain _ := true

/-- A base polifunction constantly returning `Single 3`. -/
def pS3 : PolifunctionBase Int Int where
  evaluate _ := .ok (.Single 3)
  in_domain _ := true

/-- A base polifunction constantly returning the set shape `Set {1, 2}`. -/
def pSet12 : PolifunctionBase Int Int where
  evaluate _ := .ok (.Set {1, 2})
  in_domain _ := true

/-- A base polifunction whose domain excludes everything (evaluate
honours the domain-check-first convention). -/
def pDomFalse : PolifunctionBase Int Int where
  evaluate _ := .error .DomainError
  in_domain _ := false

/-- C5: `Sum(P1,P2).in_domain` is the conjunction of the constituents'
domains; on an in-domain input where both evaluate to `Single` values the
sum evaluates to the `Single` of their sum; on an in-domain input where
both evaluate successfully but not both to `Single` values, the result is
`Other("Complex operation not yet implemented")`. -/
theorem c5_sum {A B : Type} (add : B → B → B)
    (p1 p2 : PolifunctionBase A B) (x : A) :
    (SumPolifunction add p1 p2).in_domain x =
      (p1.in_domain x && p2.in_domain x) ∧
    (∀ v1 v2, p1.in_domain x = true → p2.in_domain x = true →
      p1.evaluate x = .ok (.Single v1) → p2.evaluate x = .ok (.Single v2) →
      (SumPolifunction add p1 p2).evaluate x = .ok (.Single (add v1 v2))) ∧
    (∀ r1 r2, p1.in_domain x = true → p2.in_domain x = true →
      p1.evaluate x = .ok r1 → p2.evaluate x = .ok r2 →
      (∀ v1 v2, ¬(r1 = .Single v1 ∧ r2 = .Single v2)) →
      (SumPolifunction add p1 p2).evaluate x =
        .error (.Other "Complex operation not yet implemented")) := by
  refine ⟨rfl, ?_, ?_⟩
  · intro v1 v2 hd1 hd2 h1 h2
    simp only [SumPolifunction]
    rw [hd1, hd2, h1, h2]
    rfl
  · intro r1 r2 hd1 hd2 h1 h2 hshape
    simp only [SumPolifunction]
    rw [hd1, hd2, h1, h2]
    cases r1 <;> cases r2 <;>
      first
        | rfl
        | exact absurd ⟨rfl, rfl⟩ (hshape _ _)

/-- C5, witness: `Sum` of two `Single`-valued polifunctions adds the
values, and `Sum` of a `Single`-valued and a `Set`-valued polifunction
is the unsupported-shape error. -/
theorem c5_witness :
    (SumPolifunction Int.add pS2 pS3).in_domain 0 =
      (pS2.in_domain 0 && pS3.in_domain 0) ∧
    (SumPolifunction Int.add pS2 pS3).evaluate 0 = .ok (.Single 5) ∧
    (SumPolifunction Int.add pS2 pSet12).evaluate 0 =
      .error (.Other "Complex operation not yet implemented") := by
  refine ⟨(c5_sum Int.add pS2 pS3 0).1, ?_, ?_⟩
  · exact (c5_sum Int.add pS2 pS3 0).2.1 2 3 rfl rfl rfl rfl
  · exact (c5_sum Int.add pS2 pSet12 0).2.2 (.Single 2) (.Set {1, 2})
      rfl rfl rfl rfl (by simp)

/-- C6: the composition's `in_domain` equals `p2.in_domain`; on an
in-domain input where `p2` evaluates successfully to a non-`Single` shape
the result is the `Other(...)` unsupported-shape error regardless of `p1`;
where `p2` evaluates to `Single v`, the composition's result is exactly
`p1.evaluate` at the converted value — so any `DomainError` raised there
by `p1` surfaces as the composed function's own error. -/
theorem c6_compose {A1 B1 A2 B2 : Type} (conv : B2 → A1)
    (p1 : PolifunctionBase A1 B1) (p2 : PolifunctionBase A2 B2) (x : A2) :
    (compose conv p1 p2).in_domain x = p2.in_domain x ∧
    (∀ w, p2.in_domain x = true → p2.evaluate x = .ok w →
      (∀ v, w ≠ .Single v) →
      (compose conv p1 p2).evaluate x =
        .error (.Other "Complex composition not yet implemented")) ∧
    (∀ v, p2.in_domain x = true → p2.evaluate x = .ok (.Single v) →
      (compose conv p1 p2).evaluate x = p1.evaluate (conv v)) := by
  refine ⟨rfl, ?_, ?_⟩
  · intro w hd h2 hshape
    simp only [compose]
    rw [hd, h2]
    cases w <;>
      first
        | rfl
        | exact absurd rfl (hshape _)
  · intro v hd h2
    simp only [compose]
    rw [hd, h2]
    rfl

/-- C6, witness: composing through a branch that outputs `Set {1, 2}`
yields the `Other(...)` error even though each element would be a valid
input to `p1`; composing through `Single 2` with a `p1` whose domain is
empty surfaces `p1`'s `DomainError` as the composition's own error. -/
theorem c6_witness :
    (compose id pB0 pSet12).in_domain 0 = pSet12.in_domain 0 ∧
    (compose id pB0 pSet12).evaluate 0 =
      .error (.Other "Complex composition not yet implemented") ∧
    (compose id pDomFalse pS2).evaluate 0 = .error .DomainError := by
  refine ⟨(c6_compose id pB0 pSet12 0).1, ?_, ?_⟩
  · exact (c6_compose id pB0 pSet12 0).2.1 (.Set {1, 2}) rfl rfl (by simp)
  · exact (c6_compose id pDomFalse pS2 0).2.2 2 rfl rfl

/-- C8: `lift_to_set(f, domain).cardinality` returns `Ok 1` on every
in-domain input — for every `f`, in particular one that always fails, so
`f` is never invoked — and `DomainError` on every out-of-domain input. -/
theorem c8_lift_to_set_cardinality {A B : Type} [DecidableEq B]
    (f : A → Except PolifunctionError B) (domain : A → Bool) (x : A) :
    (domain x = true → (lift_to_set f domain).cardinality x = .ok 1) ∧
    (domain x = false →
      (lift_to_set f domain).cardinality x = .error .DomainError) := by
  constructor
  · intro hd; simp [lift_to_set, hd]
  · intro hd; simp [lift_to_set, hd]

/-- C8, witness: with the everywhere-failing function and the domain
`{0}`, cardinality is `Ok 1` at `0` and `DomainError` at `1`. -/
theorem c8_witness :
    (lift_to_set (fun _ => .error .ComputationError)
      (fun z : Int => decide (z = 0)) : SetValuedPF Int Int).cardinality 0 =
        .ok 1 ∧
    (lift_to_set (fun _ => .error .ComputationError)
      (fun z : Int => decide (z = 0)) : SetValuedPF Int Int).cardinality 1 =
        .error .DomainError := by
  constructor
  · exact (c8_lift_to_set_cardinality (fun _ => .error .ComputationError)
      (fun z : Int => decide (z = 0)) 0).1 (by decide)
  · exact (c8_lift_to_set_cardinality (fun _ => .error .ComputationError)
      (fun z : Int => decide (z = 0)) 1).2 (by decide)

/-- A set-valued polifunction with empty domain, honouring the base
contract (`value_set` and the rest fail with `DomainError`). -/
def pSetDomFalse : SetValuedPF Int Int where
  evaluate _ := .error .DomainError
  in_domain _ := false
  value_set _ := .error .DomainError
  contains_value _ _ := .error .DomainError
  cardinality _ := .error .DomainError

/-- An interval-valued polifunction with empty domain, honouring the base
contract. -/
def pIntDomFalse : IntervalValuedPF Int Int where
  evaluate _ := .error .DomainError
  in_domain _ := false
  value_interval _ := .error .DomainError
  contains_value _ _ := .error .DomainError

/-- C2, counterexample. The claim says every implementation in the
repository yields `DomainError` from `evaluate` on any input with
`in_domain` false. The inversion stub violates it: its `in_domain` is
false everywhere, yet `evaluate` yields `Other("Not implemented yet")`,
not `DomainError`. -/
theorem c2_counterexample :
    (InvertedPolifunction pB0).in_domain 0 = false ∧
    (InvertedPolifunction pB0).evaluate 0 =
      .error (.Other "Not implemented yet") ∧
    (InvertedPolifunction pB0).evaluate 0 ≠ .error .DomainError := by
  refine ⟨rfl, rfl, ?_⟩
  simp [InvertedPolifunction]

/-- C2, amended: every implementation in the repository except the two
explicit stubs yields `DomainError` from `evaluate` (and from
`value_set` / `value_interval` where that capability exists) on any
input where that implementation's own `in_domain` is false, even if the
underlying mapping function would have succeeded; the two stubs —
`InvertedPolifunction` and the `Composable`-trait `ComposedPolifunction`
placeholder — instead always fail with their fixed `Other(...)` errors.
Each conjunct's antecedent is exactly that implementation's own
`in_domain(x) = false` (for `Sum` the conjunction of constituent
domains being false, which covers mixed-domain inputs; for `compose`
only `p2`'s domain, on which the composed domain solely depends);
`to_interval`'s `value_interval` performs no check of its own and
delegates to the wrapped polifunction's `value_set`, so its antecedent
is the base contract's out-of-domain outcome for that call. -/
theorem c2_amended {A B : Type} [LinearOrder B]
    (mf : A → Except PolifunctionError (Finset B))
    (mfI : A → Except PolifunctionError (Interval B))
    (f : A → Except PolifunctionError B)
    (pcmp : B → B → Option Ordering)
    (domain : A → Bool) (add : B → B → B) (conv : B → A)
    (sp1 sp2 : SetValuedPF A B) (ip1 ip2 : IntervalValuedPF A B)
    (bp1 bp2 : PolifunctionBase A B)
    (x : A) (y : B) :
    ((BasicSetValuedPolifunction mf domain).in_domain x = false →
      (BasicSetValuedPolifunction mf domain).evaluate x =
        .error .DomainError) ∧
    ((BasicSetValuedPolifunction mf domain).in_domain x = false →
      (BasicSetValuedPolifunction mf domain).value_set x =
        .error .DomainError) ∧
    ((BasicIntervalValuedPolifunction pcmp mfI domain).in_domain x =
        false →
      (BasicIntervalValuedPolifunction pcmp mfI domain).evaluate x =
        .error .DomainError) ∧
    ((BasicIntervalValuedPolifunction pcmp mfI domain).in_domain x =
        false →
      (BasicIntervalValuedPolifunction pcmp mfI domain).value_interval x =
        .error .DomainError) ∧
    ((UnionPolifunction sp1 sp2).in_domain x = false →
      (UnionPolifunction sp1 sp2).evaluate x = .error .DomainError) ∧
    ((UnionPolifunction sp1 sp2).in_domain x = false →
      (UnionPolifunction sp1 sp2).value_set x = .error .DomainError) ∧
    ((HullPolifunction pcmp ip1 ip2).in_domain x = false →
      (HullPolifunction pcmp ip1 ip2).evaluate x = .error .DomainError) ∧
    ((HullPolifunction pcmp ip1 ip2).in_domain x = false →
      (HullPolifunction pcmp ip1 ip2).value_interval x =
        .error .DomainError) ∧
    ((LiftedPolifunction f domain).in_domain x = false →
      (LiftedPolifunction f domain).evaluate x = .error .DomainError) ∧
    ((SumPolifunction add bp1 bp2).in_domain x = false →
      (SumPolifunction add bp1 bp2).evaluate x = .error .DomainError) ∧
    ((compose conv bp1 bp2).in_domain x = false →
      (compose conv bp1 bp2).evaluate x = .error .DomainError) ∧
    ((to_interval sp1).in_domain x = false →
      (to_interval sp1).evaluate x = .error .DomainError) ∧
    (sp1.value_set x = .error .DomainError →
      (to_interval sp1).value_interval x = .error .DomainError) ∧
    ((lift_to_set f domain).in_domain x = false →
      (lift_to_set f domain).evaluate x = .error .DomainError) ∧
    ((lift_to_set f domain).in_domain x = false →
      (lift_to_set f domain).value_set x = .error .DomainError) ∧
    (InvertedPolifunction bp1).evaluate y =
      .error (.Other "Not implemented yet") ∧
    (ComposedPolifunction conv bp1 bp2).evaluate x =
      .error (.Other "ComposedPolifunction evaluation not implemented") := by
  refine ⟨?_, ?_, ?_, ?_, ?_, ?_, ?_, ?_, ?_, ?_, ?_, ?_, ?_, ?_, ?_,
    rfl, rfl⟩
  · intro h
    simp only [BasicSetValuedPolifunction] at h
    simp [BasicSetValuedPolifunction, h]
  · intro h
    simp only [BasicSetValuedPolifunction] at h
    simp [BasicSetValuedPolifunction, basicSetValueSet, h]
  · intro h
    simp only [BasicIntervalValuedPolifunction] at h
    simp [BasicIntervalValuedPolifunction, h]
  · intro h
    simp only [BasicIntervalValuedPolifunction] at h
    simp [BasicIntervalValuedPolifunction, basicIntervalValueInterval, h]
  · intro h
    simp only [UnionPolifunction] at h
    simp [UnionPolifunction, unionEvaluate, h]
  · intro h
    simp only [UnionPolifunction] at h
    simp [UnionPolifunction, unionValueSet, h]
  · intro h
    simp only [HullPolifunction] at h
    simp [HullPolifunction, h]
  · intro h
    simp only [HullPolifunction] at h
    simp [HullPolifunction, hullValueInterval, h]
  · intro h
    simp only [LiftedPolifunction] at h
    simp [LiftedPolifunction, h]
  · intro h
    simp only [SumPolifunction] at h ⊢
    rw [h]
    rfl
  · intro h
    simp only [compose] at h
    simp [compose, h]
  · intro h
    simp only [to_interval] at h
    simp [to_interval, h]
  · intro h
    simp only [to_interval, toIntervalValueInterval]
    rw [h]
    rfl
  · intro h
    simp only [lift_to_set] at h
    simp [lift_to_set, h]
  · intro h
    simp only [lift_to_set] at h
    simp [lift_to_set, h]

/-- C2, witness: the amended statement instantiated at concrete
polifunctions over `Int` at input `0`; the `Sum` and `compose` instances
use a mixed-domain pair (`pB0` in-domain everywhere, `pDomFalse`
nowhere), where the combinator's own domain is still false. -/
theorem c2_witness :
    (BasicSetValuedPolifunction (fun _ => .ok {0}) (fun _ : Int => false) :
      SetValuedPF Int Int).evaluate 0 = .error .DomainError ∧
    (BasicSetValuedPolifunction (fun _ => .ok {0}) (fun _ : Int => false) :
      SetValuedPF Int Int).value_set 0 = .error .DomainError ∧
    (BasicIntervalValuedPolifunction cmpOf
      (fun _ => .ok ⟨0, 0, true, true⟩) (fun _ : Int => false) :
      IntervalValuedPF Int Int).evaluate 0 = .error .DomainError ∧
    (BasicIntervalValuedPolifunction cmpOf
      (fun _ => .ok ⟨0, 0, true, true⟩) (fun _ : Int => false) :
      IntervalValuedPF Int Int).value_interval 0 = .error .DomainError ∧
    (UnionPolifunction pSetDomFalse pSetDomFalse).evaluate 0 =
      .error .DomainError ∧
    (UnionPolifunction pSetDomFalse pSetDomFalse).value_set 0 =
      .error .DomainError ∧
    (HullPolifunction cmpOf pIntDomFalse pIntDomFalse).evaluate 0 =
      .error .DomainError ∧
    (HullPolifunction cmpOf pIntDomFalse pIntDomFalse).value_interval 0 =
      .error .DomainError ∧
    (LiftedPolifunction (fun _ => .ok 0) (fun _ : Int => false) :
      PolifunctionBase Int Int).evaluate 0 = .error .DomainError ∧
    (SumPolifunction Int.add pB0 pDomFalse).evaluate 0 =
      .error .DomainError ∧
    (compose id pB0 pDomFalse).evaluate 0 = .error .DomainError ∧
    (to_interval pSetDomFalse).evaluate 0 = .error .DomainError ∧
    (to_interval pSetDomFalse).value_interval 0 = .error .DomainError ∧
    (lift_to_set (fun _ => .ok 0) (fun _ : Int => false) :
      SetValuedPF Int Int).evaluate 0 = .error .DomainError ∧
    (lift_to_set (fun _ => .ok 0) (fun _ : Int => false) :
      SetValuedPF Int Int).value_set 0 = .error .DomainError ∧
    (InvertedPolifunction pB0).evaluate 0 =
      .error (.Other "Not implemented yet") ∧
    (ComposedPolifunction id pB0 pDomFalse).evaluate 0 =
      .error (.Other "ComposedPolifunction evaluation not implemented") := by
  obtain ⟨a1, a2, a3, a4, a5, a6, a7, a8, a9, a10, a11, a12, a13, a14,
    a15, a16, a17⟩ :=
    c2_amended (fun _ => .ok {0}) (fun _ => .ok ⟨0, 0, true, true⟩)
      (fun _ => .ok 0) cmpOf (fun _ : Int => false) Int.add id
      pSetDomFalse pSetDomFalse pIntDomFalse pIntDomFalse
      pB0 pDomFalse 0 0
  exact ⟨a1 rfl, a2 rfl, a3 rfl, a4 rfl, a5 rfl, a6 rfl, a7 rfl, a8 rfl,
    a9 rfl, a10 rfl, a11 rfl, a12 rfl, a13 rfl, a14 rfl, a15 rfl,
    a16, a17⟩

/-- C3, spec-side description of the hull's lower bound: the smaller of
the two lower bounds by the element ordering; on a tie in value the
result is inclusive if either side was inclusive (OR-sticky), otherwise
the strictly smaller side's bound and inclusivity are carried; an
incomparable pair has no hull lower bound. -/
def specHullLower {T : Type} (pcmp : T → T → Option Ordering)
    (i1 i2 : Interval T) : Option (T × Bool) :=
  match pcmp i1.lower i2.lower with
  | some Ordering.lt => some (i1.lower, i1.lower_inclusive)
  | some Ordering.eq =>
    some (i1.lower, i1.lower_inclusive || i2.lower_inclusive)
  | some Ordering.gt => some (i2.lower, i2.lower_inclusive)
  | none => none

/-- C3, spec-side description of the hull's upper bound: the larger of
the two upper bounds, with OR-ed inclusivity on ties; an incomparable
pair has no hull upper bound. -/
def specHullUpper {T : Type} (pcmp : T → T → Option Ordering)
    (i1 i2 : Interval T) : Option (T × Bool) :=
  match pcmp i1.upper i2.upper with
  | some Ordering.gt => some (i1.upper, i1.upper_inclusive)
  | some Ordering.eq =>
    some (i1.upper, i1.upper_inclusive || i2.upper_inclusive)
  | some Ordering.lt => some (i2.upper, i2.upper_inclusive)
  | none => none

/-- C3: on an input in the hull's domain where both constituents'
`value_interval` succeed, `Hull.value_interval` returns exactly the
interval built from the spec-described lower and upper bounds
(`specHullLower` / `specHullUpper`), and is `ComputationError` whenever
the two lower (or the two upper) bounds are incomparable. -/
theorem c3_hull_bounds {A B : Type} (pcmp : B → B → Option Ordering)
    (p1 p2 : IntervalValuedPF A B) (x : A) (i1 i2 : Interval B)
    (hdom : hullInDomain p1 p2 x = true)
    (h1 : p1.value_interval x = .ok i1)
    (h2 : p2.value_interval x = .ok i2) :
    hullValueInterval pcmp p1 p2 x =
      match specHullLower pcmp i1 i2, specHullUpper pcmp i1 i2 with
      | some l, some u =>
        .ok { lower := l.1, upper := u.1,
              lower_inclusive := l.2, upper_inclusive := u.2 }
      | _, _ => .error .ComputationError := by
  simp only [hullValueInterval, hdom, h1, h2, Bool.not_true,
    Bool.false_eq_true, if_false]
  rcases hl : pcmp i1.lower i2.lower with _ | cl
  · simp [hullCombine, specHullLower, hl]
  · rcases hu : pcmp i1.upper i2.upper with _ | cu
    · cases cl <;>
        simp [hullCombine, specHullLower, specHullUpper, hl, hu]
    · cases cl <;> cases cu <;>
        simp [hullCombine, specHullLower, specHullUpper, hl, hu]

/-- An interval-valued polifunction constantly returning the interval
`(5, 10]` (lower bound exclusive). -/
def pInt5e10 : IntervalValuedPF Int Int where
  evaluate _ := .ok (.Interval ⟨5, 10, false, true⟩)
  in_domain _ := true
  value_interval _ := .ok ⟨5, 10, false, true⟩
  contains_value _ value :=
    .ok (lowerCheckB cmpOf ⟨5, 10, false, true⟩ value &&
         upperCheckB cmpOf ⟨5, 10, false, true⟩ value)

/-- An interval-valued polifunction constantly returning the interval
`[5, 12)` (lower bound inclusive). -/
def pInt5i12 : IntervalValuedPF Int Int where
  evaluate _ := .ok (.Interval ⟨5, 12, true, false⟩)
  in_domain _ := true
  value_interval _ := .ok ⟨5, 12, true, false⟩
  contains_value _ value :=
    .ok (lowerCheckB cmpOf ⟨5, 12, true, false⟩ value &&
         upperCheckB cmpOf ⟨5, 12, true, false⟩ value)

/-- C3, witness: hulling `(5, 10]` with `[5, 12)` ties the lower bounds
at `5` with one side inclusive, so the hull is `[5, 12)` — lower bound
`5` inclusive by the OR-sticky rule, upper bound `12` exclusive from the
larger side. -/
theorem c3_witness :
    hullValueInterval cmpOf pInt5e10 pInt5i12 0 =
      .ok ⟨5, 12, true, false⟩ :=
  (c3_hull_bounds cmpOf pInt5e10 pInt5i12 0
    ⟨5, 10, false, true⟩ ⟨5, 12, true, false⟩ rfl rfl rfl).trans (by decide)

/-- C7: on an in-domain input where the wrapped polifunction's value set
is obtained successfully, `to_interval(P).value_interval` returns the
interval from the set's minimum to the set's maximum, both bounds
inclusive, when the set is non-empty, and `ComputationError` when the
set is empty. -/
theorem c7_to_interval {A B : Type} [LinearOrder B]
    (p : SetValuedPF A B) (x : A) (s : Finset B)
    (hdom : p.in_domain x = true) (h : p.value_set x = .ok s) :
    (∀ hne : s ≠ ∅,
      (to_interval p).value_interval x =
        .ok { lower := s.min' (Finset.nonempty_iff_ne_empty.mpr hne),
              upper := s.max' (Finset.nonempty_iff_ne_empty.mpr hne),
              lower_inclusive := true, upper_inclusive := true }) ∧
    (s = ∅ →
      (to_interval p).value_interval x = .error .ComputationError) := by
  constructor
  · intro hne
    simp only [to_interval, toIntervalValueInterval, h, exceptBind_ok]
    rw [dif_neg hne]
    rfl
  · intro he
    simp only [to_interval, toIntervalValueInterval, h, exceptBind_ok]
    rw [dif_pos he]

/-- A set-valued polifunction constantly returning the set `{3, 7, 1}`. -/
def pSet371 : SetValuedPF Int Int where
  evaluate _ := .ok (.Set {3, 7, 1})
  in_domain _ := true
  value_set _ := .ok {3, 7, 1}
  contains_value _ value := .ok (decide (value ∈ ({3, 7, 1} : Finset Int)))
  cardinality _ := .ok 3

/-- C7, witness: the set `{3, 7, 1}` converts to the interval `[1, 7]`
inclusive on both ends, and the empty set yields `ComputationError`. -/
theorem c7_witness :
    (to_interval pSet371).value_interval 0 = .ok ⟨1, 7, true, true⟩ ∧
    (to_interval pEmptySet).value_interval 0 = .error .ComputationError := by
  constructor
  · exact ((c7_to_interval pSet371 0 {3, 7, 1} rfl rfl).1
      (by decide)).trans (by decide)
  · exact (c7_to_interval pEmptySet 0 ∅ rfl rfl).2 rfl

/-- Over a totally ordered element type, the code's lower-bound check is
satisfied exactly when the value equals an inclusive lower bound or lies
strictly above the lower bound. -/
theorem lowerCheckB_cmpOf_iff {T : Type} [LinearOrder T]
    (i : Interval T) (v : T) :
    lowerCheckB cmpOf i v = true ↔
      ((i.lower_inclusive = true ∧ v = i.lower) ∨ i.lower < v) := by
  unfold lowerCheckB cmpOf
  rcases hc : compare v i.lower with _ | _ | _
  · have hv : v < i.lower := compare_lt_iff_lt.mp hc
    cases hinc : i.lower_inclusive <;>
      simp [hc, hinc, ne_of_lt hv, lt_asymm hv]
  · have hv : v = i.lower := compare_eq_iff_eq.mp hc
    cases hinc : i.lower_inclusive <;> simp [hc, hinc, hv]
  · have hv : i.lower < v := compare_gt_iff_gt.mp hc
    cases hinc : i.lower_inclusive <;> simp [hc, hinc, hv]

/-- Over a totally ordered element type, the code's upper-bound check is
satisfied exactly when the value equals an inclusive upper bound or lies
strictly below the upper bound. -/
theorem upperCheckB_cmpOf_iff {T : Type} [LinearOrder T]
    (i : Interval T) (v : T) :
    upperCheckB cmpOf i v = true ↔
      ((i.upper_inclusive = true ∧ v = i.upper) ∨ v < i.upper) := by
  unfold upperCheckB cmpOf
  rcases hc : compare v i.upper with _ | _ | _
  · have hv : v < i.upper := compare_lt_iff_lt.mp hc
    cases hinc : i.upper_inclusive <;> simp [hc, hinc, hv]
  · have hv : v = i.upper := compare_eq_iff_eq.mp hc
    cases hinc : i.upper_inclusive <;> simp [hc, hinc, hv]
  · have hv : i.upper < v := compare_gt_iff_gt.mp hc
    cases hinc : i.upper_inclusive <;>
      simp [hc, hinc, ne_of_gt hv, lt_asymm hv]

/-- When interval1's lower bound is strictly smaller, a value passing
either constituent's lower check passes the check at interval1's lower
bound, which the hull keeps. -/
theorem hull_lower_pick_lt {T : Type} [LinearOrder T]
    {l1 l2 v : T} {b1 b2 : Bool} (hlt : l1 < l2)
    (h : ((b1 = true ∧ v = l1) ∨ l1 < v) ∨
         ((b2 = true ∧ v = l2) ∨ l2 < v)) :
    (b1 = true ∧ v = l1) ∨ l1 < v := by
  rcases h with h | h
  · exact h
  · right
    rcases h with ⟨_, rfl⟩ | h
    · exact hlt
    · exact lt_trans hlt h

/-- When the two lower bounds tie, a value passing either constituent's
lower check passes the check at the common bound with OR-ed
inclusivity. -/
theorem hull_lower_pick_eq {T : Type} [LinearOrder T]
    {l1 l2 v : T} {b1 b2 : Bool} (heq : l1 = l2)
    (h : ((b1 = true ∧ v = l1) ∨ l1 < v) ∨
         ((b2 = true ∧ v = l2) ∨ l2 < v)) :
    ((b1 || b2) = true ∧ v = l1) ∨ l1 < v := by
  subst heq
  rcases h with (⟨hb, hv⟩ | h) | (⟨hb, hv⟩ | h)
  · exact Or.inl ⟨by simp [hb], hv⟩
  · exact Or.inr h
  · exact Or.inl ⟨by simp [hb], hv⟩
  · exact Or.inr h

/-- When interval2's lower bound is strictly smaller, a value passing
either constituent's lower check passes the check at interval2's lower
bound, which the hull keeps. -/
theorem hull_lower_pick_gt {T : Type} [LinearOrder T]
    {l1 l2 v : T} {b1 b2 : Bool} (hgt : l2 < l1)
    (h : ((b1 = true ∧ v = l1) ∨ l1 < v) ∨
         ((b2 = true ∧ v = l2) ∨ l2 < v)) :
    (b2 = true ∧ v = l2) ∨ l2 < v := by
  rcases h with (⟨_, rfl⟩ | h) | h
  · exact Or.inr hgt
  · exact Or.inr (lt_trans hgt h)
  · exact h

/-- Dual of `hull_lower_pick_gt` for the upper bound: when interval1's
upper bound is strictly larger, the hull keeps it and containment is
preserved. -/
theorem hull_upper_pick_gt {T : Type} [LinearOrder T]
    {u1 u2 v : T} {b1 b2 : Bool} (hgt : u2 < u1)
    (h : ((b1 = true ∧ v = u1) ∨ v < u1) ∨
         ((b2 = true ∧ v = u2) ∨ v < u2)) :
    (b1 = true ∧ v = u1) ∨ v < u1 := by
  rcases h with h | h
  · exact h
  · right
    rcases h with ⟨_, rfl⟩ | h
    · exact hgt
    · exact lt_trans h hgt

/-- Dual of `hull_lower_pick_eq` for the upper bound. -/
theorem hull_upper_pick_eq {T : Type} [LinearOrder T]
    {u1 u2 v : T} {b1 b2 : Bool} (heq : u1 = u2)
    (h : ((b1 = true ∧ v = u1) ∨ v < u1) ∨
         ((b2 = true ∧ v = u2) ∨ v < u2)) :
    ((b1 || b2) = true ∧ v = u1) ∨ v < u1 := by
  subst heq
  rcases h with (⟨hb, hv⟩ | h) | (⟨hb, hv⟩ | h)
  · exact Or.inl ⟨by simp [hb], hv⟩
  · exact Or.inr h
  · exact Or.inl ⟨by simp [hb], hv⟩
  · exact Or.inr h

/-- Dual of `hull_lower_pick_lt` for the upper bound: when interval2's
upper bound is strictly larger, the hull keeps it and containment is
preserved. -/
theorem hull_upper_pick_lt {T : Type} [LinearOrder T]
    {u1 u2 v : T} {b1 b2 : Bool} (hlt : u1 < u2)
    (h : ((b1 = true ∧ v = u1) ∨ v < u1) ∨
         ((b2 = true ∧ v = u2) ∨ v < u2)) :
    (b2 = true ∧ v = u2) ∨ v < u2 := by
  rcases h with (⟨_, rfl⟩ | h) | h
  · exact Or.inr hlt
  · exact Or.inr (lt_trans h hlt)
  · exact h

/-- C4: over a totally ordered element type, on an input in the hull's
domain where both constituents' `value_interval` succeed, the hull's
interval exists and contains (under the code's inclusive/exclusive bound
checks) every value contained in either constituent's interval. -/
theorem c4_hull_superset {A B : Type} [LinearOrder B]
    (p1 p2 : IntervalValuedPF A B) (x : A) (i1 i2 : Interval B) (v : B)
    (hdom : hullInDomain p1 p2 x = true)
    (h1 : p1.value_interval x = .ok i1)
    (h2 : p2.value_interval x = .ok i2)
    (hv : (lowerCheckB cmpOf i1 v && upperCheckB cmpOf i1 v) = true ∨
          (lowerCheckB cmpOf i2 v && upperCheckB cmpOf i2 v) = true) :
    ∃ ih : Interval B,
      hullValueInterval cmpOf p1 p2 x = .ok ih ∧
      (lowerCheckB cmpOf ih v && upperCheckB cmpOf ih v) = true := by
  simp only [Bool.and_eq_true, lowerCheckB_cmpOf_iff, upperCheckB_cmpOf_iff]
    at hv
  have hvl := hv.imp And.left And.left
  have hvu := hv.imp And.right And.right
  simp only [hullValueInterval, hdom, h1, h2, Bool.not_true,
    Bool.false_eq_true, if_false]
  rcases hcl : compare i1.lower i2.lower with _ | _ | _ <;>
    rcases hcu : compare i1.upper i2.upper with _ | _ | _ <;>
    simp only [hullCombine, cmpOf, hcl, hcu, exceptBind_ok,
      exceptPure_eq_ok] <;>
    refine ⟨_, rfl, ?_⟩ <;>
    simp only [Bool.and_eq_true, lowerCheckB_cmpOf_iff,
      upperCheckB_cmpOf_iff] <;>
    refine ⟨?_, ?_⟩ <;>
    first
      | exact hull_lower_pick_lt (compare_lt_iff_lt.mp hcl) hvl
      | exact hull_lower_pick_eq (compare_eq_iff_eq.mp hcl) hvl
      | exact hull_lower_pick_gt (compare_gt_iff_gt.mp hcl) hvl
      | exact hull_upper_pick_gt (compare_gt_iff_gt.mp hcu) hvu
      | exact hull_upper_pick_eq (compare_eq_iff_eq.mp hcu) hvu
      | exact hull_upper_pick_lt (compare_lt_iff_lt.mp hcu) hvu

/-- C4, witness: the value `11` is contained in `[5, 12)` (the second
constituent) and therefore in the hull of `(5, 10]` and `[5, 12)`. -/
theorem c4_witness :
    ∃ ih : Interval Int,
      hullValueInterval cmpOf pInt5e10 pInt5i12 0 = .ok ih ∧
      (lowerCheckB cmpOf ih 11 && upperCheckB cmpOf ih 11) = true :=
  c4_hull_superset pInt5e10 pInt5i12 0
    ⟨5, 10, false, true⟩ ⟨5, 12, true, false⟩ 11
    rfl rfl rfl (Or.inr (by decide))

end PolifunctionsSDK
